import Mathlib

/-!
Verification development for the bastepin pastebin service.

The Go source is embedded shallowly:

* `computeFileHash` (hash.go) — MD5 digest of the content bytes, printed as
  lowercase hex; implemented here bit-for-bit over `Nat` words reduced mod 2^32.
* The GORM-backed store (config.go model declarations) becomes a `List Paste`
  with explicit fields, including the `DeletedAt` soft-delete column; every
  query goes through `firstPaste`, which reproduces GORM's default scope
  (`deleted_at IS NULL`) and `First`'s `ORDER BY primary key LIMIT 1`.
* The service methods of paste_service.go (`CreatePaste`, `GetPaste`,
  `UpdatePaste`, `DeletePaste`, `CleanupExpiredPastes`) and the `Login` method
  of the auth service become pure functions on the store; `time.Now()` is an
  explicit `now : Int` parameter (nanosecond instants) and the random ID from
  `randfilename` is an explicit `freshID` parameter.  Go durations are int64
  nanoseconds, so the duration arithmetic of `CreatePaste` wraps through
  `wrapInt64`.  The bcrypt comparison used by `Login` is an external library
  call, so it is a function parameter.
-/

set_option autoImplicit false

namespace Bastepin

/-! ### Bytes of a Go string

Go's `len(content)` and `[]byte(content)` work on the UTF-8 bytes of the
string; we encode `String` to its UTF-8 byte sequence explicitly. -/

/-- UTF-8 encoding of a single character, as a list of byte values. -/
def utf8EncodeChar (c : Char) : List Nat :=
  let n := c.toNat
  if n < 128 then [n]
  else if n < 2048 then [192 ||| (n >>> 6), 128 ||| (n &&& 63)]
  else if n < 65536 then
    [224 ||| (n >>> 12), 128 ||| ((n >>> 6) &&& 63), 128 ||| (n &&& 63)]
  else
    [240 ||| (n >>> 18), 128 ||| ((n >>> 12) &&& 63),
     128 ||| ((n >>> 6) &&& 63), 128 ||| (n &&& 63)]

/-- The UTF-8 bytes of a string, matching Go's `[]byte(s)`. -/
def utf8Bytes (s : String) : List Nat :=
  (s.data.map utf8EncodeChar).flatten

/-- Go's `len(s)` on a string: the number of UTF-8 bytes. -/
def byteLen (s : String) : Nat :=
  (utf8Bytes s).length

/-! ### MD5 (crypto/md5), used by `computeFileHash` in hash.go -/

/-- The 64 MD5 sine-derived round constants. -/
def md5K : List Nat :=
  [0xd76aa478, 0xe8c7b756, 0x242070db, 0xc1bdceee,
   0xf57c0faf, 0x4787c62a, 0xa8304613, 0xfd469501,
   0x698098d8, 0x8b44f7af, 0xffff5bb1, 0x895cd7be,
   0x6b901122, 0xfd987193, 0xa679438e, 0x49b40821,
   0xf61e2562, 0xc040b340, 0x265e5a51, 0xe9b6c7aa,
   0xd62f105d, 0x02441453, 0xd8a1e681, 0xe7d3fbc8,
   0x21e1cde6, 0xc33707d6, 0xf4d50d87, 0x455a14ed,
   0xa9e3e905, 0xfcefa3f8, 0x676f02d9, 0x8d2a4c8a,
   0xfffa3942, 0x8771f681, 0x6d9d6122, 0xfde5380c,
   0xa4beea44, 0x4bdecfa9, 0xf6bb4b60, 0xbebfbc70,
   0x289b7ec6, 0xeaa127fa, 0xd4ef3085, 0x04881d05,
   0xd9d4d039, 0xe6db99e5, 0x1fa27cf8, 0xc4ac5665,
   0xf4292244, 0x432aff97, 0xab9423a7, 0xfc93a039,
   0x655b59c3, 0x8f0ccc92, 0xffeff47d, 0x85845dd1,
   0x6fa87e4f, 0xfe2ce6e0, 0xa3014314, 0x4e0811a1,
   0xf7537e82, 0xbd3af235, 0x2ad7d2bb, 0xeb86d391]

/-- The 64 MD5 per-round left-rotation amounts. -/
def md5S : List Nat :=
  [7, 12, 17, 22, 7, 12, 17, 22, 7, 12, 17, 22, 7, 12, 17, 22,
   5, 9, 14, 20, 5, 9, 14, 20, 5, 9, 14, 20, 5, 9, 14, 20,
   4, 11, 16, 23, 4, 11, 16, 23, 4, 11, 16, 23, 4, 11, 16, 23,
   6, 10, 15, 21, 6, 10, 15, 21, 6, 10, 15, 21, 6, 10, 15, 21]

/-- Bitwise complement within a 32-bit word. -/
def not32 (x : Nat) : Nat := x ^^^ 0xffffffff

/-- Left rotation of a 32-bit word (assumes `x < 2^32`, `s ≤ 32`). -/
def rotl32 (x s : Nat) : Nat :=
  ((x <<< s) % 4294967296) ||| (x >>> (32 - s))

/-- One of the 64 MD5 rounds; `M` holds the 16 message words of the chunk. -/
def md5Round (M : List Nat) (st : Nat × Nat × Nat × Nat) (i : Nat) :
    Nat × Nat × Nat × Nat :=
  let (a, b, c, d) := st
  let fg : Nat × Nat :=
    if i < 16 then ((b &&& c) ||| (not32 b &&& d), i)
    else if i < 32 then ((d &&& b) ||| (not32 d &&& c), (5 * i + 1) % 16)
    else if i < 48 then (b ^^^ c ^^^ d, (3 * i + 5) % 16)
    else (c ^^^ (b ||| not32 d), (7 * i) % 16)
  let f := (fg.1 + a + md5K.getD i 0 + M.getD fg.2 0) % 4294967296
  (d, (b + rotl32 f (md5S.getD i 0)) % 4294967296, b, c)

/-- Group a byte list into 32-bit little-endian words. -/
def leWords : List Nat → List Nat
  | b0 :: b1 :: b2 :: b3 :: rest =>
    (b0 + 256 * b1 + 65536 * b2 + 16777216 * b3) :: leWords rest
  | _ => []

/-- The four little-endian bytes of a 32-bit word. -/
def leBytes4 (n : Nat) : List Nat :=
  [n % 256, n / 256 % 256, n / 65536 % 256, n / 16777216 % 256]

/-- The eight little-endian bytes of a 64-bit length field. -/
def leBytes8 (n : Nat) : List Nat :=
  leBytes4 (n % 4294967296) ++ leBytes4 (n / 4294967296 % 4294967296)

/-- MD5 padding: a 1-bit, zeros to 56 mod 64 bytes, then the bit length. -/
def md5Pad (msg : List Nat) : List Nat :=
  msg ++ [128] ++ List.replicate ((119 - msg.length % 64) % 64) 0 ++
    leBytes8 (8 * msg.length % 18446744073709551616)

/-- Split a byte list into 64-byte chunks. -/
def chunks64 (l : List Nat) : List (List Nat) :=
  if h : l = [] then []
  else l.take 64 :: chunks64 (l.drop 64)
termination_by l.length
decreasing_by
  simp only [List.length_drop]
  have : 0 < l.length := List.length_pos.mpr h
  omega

/-- Process one 64-byte chunk into the running MD5 state. -/
def md5Chunk (st : Nat × Nat × Nat × Nat) (chunk : List Nat) :
    Nat × Nat × Nat × Nat :=
  let M := leWords chunk
  let (a, b, c, d) := st
  let r := (List.range 64).foldl (md5Round M) st
  ((a + r.1) % 4294967296, (b + r.2.1) % 4294967296,
   (c + r.2.2.1) % 4294967296, (d + r.2.2.2) % 4294967296)

/-- The 16-byte MD5 digest of a byte sequence. -/
def md5Bytes (msg : List Nat) : List Nat :=
  let r := (chunks64 (md5Pad msg)).foldl md5Chunk
    (0x67452301, 0xefcdab89, 0x98badcfe, 0x10325476)
  leBytes4 r.1 ++ leBytes4 r.2.1 ++ leBytes4 r.2.2.1 ++ leBytes4 r.2.2.2

/-- Lowercase hex digit for a value below 16, as in Go's `%x`. -/
def hexDigit (n : Nat) : Char :=
  if n < 10 then Char.ofNat (48 + n) else Char.ofNat (87 + n)

/-- Two lowercase hex digits of a byte. -/
def byteToHex (b : Nat) : List Char :=
  [hexDigit (b / 16), hexDigit (b % 16)]

/-- hash.go `computeFileHash`: the MD5 digest of the content bytes, printed
as a lowercase hex string (`fmt.Sprintf` with the `x` verb).  The seek-reset
branch of the Go function concerns only the reader and cannot fail on the
in-memory `bytes.Reader` the paste service passes in, so the function is
total here. -/
def computeFileHash (content : String) : String :=
  String.mk ((md5Bytes (utf8Bytes content)).map byteToHex).flatten

/-! ### Data model (config.go)

`Paste` mirrors the GORM model: the `DeletedAt gorm.DeletedAt` column makes
the model soft-deletable, so deletion writes a timestamp into `deletedAt`
and every default-scoped query filters on `deletedAt = none`.  Time instants
are `Int` nanoseconds.  Go's `time.Duration` is a signed 64-bit count of
nanoseconds, so `time.Duration(m) * time.Minute` is the int64-wrapped
product `wrapInt64 (m * minuteNs)`. -/

/-- Nanoseconds in a Go `time.Minute`. -/
def minuteNs : Int := 60000000000

/-- Two's-complement wrap into the signed 64-bit range, as Go int64
multiplication overflows. -/
def wrapInt64 (x : Int) : Int :=
  (x + 9223372036854775808) % 18446744073709551616 - 9223372036854775808

theorem wrapInt64_eq_self {x : Int} (h0 : 0 ≤ x)
    (h : x < 9223372036854775808) : wrapInt64 x = x := by
  unfold wrapInt64
  omega

/-- The `Paste` row (config.go). -/
structure Paste where
  id : String
  title : String
  content : String
  contentHash : String
  language : String
  isPrivate : Bool
  unlisted : Bool
  expiresAt : Option Int
  userID : Option Nat
  createdAt : Int
  updatedAt : Int
  deletedAt : Option Int
deriving Repr, DecidableEq

/-- The `User` row (config.go), restricted to the columns `Login` touches. -/
structure User where
  id : Nat
  username : String
  passwordHash : String
deriving Repr, DecidableEq

/-! ### The store and GORM query semantics

A table is a `List` of rows.  GORM's `First` on a soft-deletable model runs
`SELECT * FROM pastes WHERE <conds> AND deleted_at IS NULL ORDER BY id LIMIT 1`,
i.e. among the live rows satisfying the condition it returns the one with the
least primary key. -/

/-- Fold step for `firstPaste`: keep the least-id live row satisfying `pred`. -/
def pasteStep (pred : Paste → Bool) : Option Paste → Paste → Option Paste
  | none, p => if p.deletedAt == none && pred p then some p else none
  | some q, p =>
    if p.deletedAt == none && pred p then
      if p.id < q.id then some p else some q
    else some q

/-- GORM `First` on the pastes table: least-id live row satisfying `pred`. -/
def firstPaste (store : List Paste) (pred : Paste → Bool) : Option Paste :=
  store.foldl (pasteStep pred) none

/-- GORM `First` on the users table (no soft delete): least-id match. -/
def firstUser (users : List User) (pred : User → Bool) : Option User :=
  users.foldl
    (fun acc u =>
      if pred u then
        match acc with
        | none => some u
        | some v => if u.id < v.id then some u else some v
      else acc)
    none

/-- GORM `Save(&paste)`: update all columns of the live row with this id. -/
def savePaste (store : List Paste) (p : Paste) : List Paste :=
  store.map (fun q => if q.id == p.id && q.deletedAt == none then p else q)

/-- GORM `Delete(&paste)` on a soft-deletable model: set `deleted_at = now`
on the live row with this id. -/
def softDeleteByID (store : List Paste) (pid : String) (now : Int) :
    List Paste :=
  store.map (fun q =>
    if q.id == pid && q.deletedAt == none then { q with deletedAt := some now }
    else q)

/-! ### Paste service (paste_service.go) -/

/-- The `WHERE id = ?` condition of `GetPaste`/`UpdatePaste`/`DeletePaste`. -/
def idPred (pasteID : String) (p : Paste) : Bool :=
  p.id == pasteID

/-- The dedup condition of `CreatePaste`: same `content_hash` and the same
owner scope (`user_id = ?` for an authenticated owner, `user_id IS NULL`
for anonymous). -/
def scopeMatches (rowOwner reqOwner : Option Nat) : Bool :=
  match reqOwner with
  | some u => rowOwner == some u
  | none => rowOwner == none

/-- The full dedup predicate used by `CreatePaste`'s lookup. -/
def dedupPred (content : String) (userID : Option Nat) (p : Paste) : Bool :=
  p.contentHash == computeFileHash content && scopeMatches p.userID userID

/-- `CreatePaste`'s expiration:
`time.Now().Add(time.Duration(*expiresIn) * time.Minute)` when the request
carries a positive number of minutes, otherwise no expiration.  The
`Duration` multiplication is int64 arithmetic and wraps on overflow. -/
def computeExpiry (now : Int) (expiresIn : Option Int) : Option Int :=
  match expiresIn with
  | some m => if 0 < m then some (now + wrapInt64 (m * minuteNs)) else none
  | none => none

/-- The row `CreatePaste` inserts on a dedup miss (`createdAt`/`updatedAt`
are GORM's autoCreateTime/autoUpdateTime at insertion). -/
def newPaste (now : Int) (freshID title content language : String)
    (isPrivate unlisted : Bool) (expiresIn : Option Int)
    (userID : Option Nat) : Paste :=
  { id := freshID
    title := title
    content := content
    contentHash := computeFileHash content
    language := language
    isPrivate := isPrivate
    unlisted := unlisted
    expiresAt := computeExpiry now expiresIn
    userID := userID
    createdAt := now
    updatedAt := now
    deletedAt := none }

/-- paste_service.go `CreatePaste`.  `freshID` stands for the random
8-character id drawn by `randfilename`. -/
def CreatePaste (store : List Paste) (now : Int) (freshID : String)
    (title content language : String) (isPrivate unlisted : Bool)
    (expiresIn : Option Int) (userID : Option Nat) :
    Except String (Paste × List Paste) :=
  if byteLen content = 0 then .error "paste content cannot be empty"
  else if byteLen content > 10 <<< 20 then .error "paste too large (max 10MB)"
  else if isPrivate = true ∧ userID = none then
    .error "must be logged in to create private pastes"
  else
    match firstPaste store (dedupPred content userID) with
    | some existing => .ok (existing, store)
    | none =>
      .ok (newPaste now freshID title content language isPrivate unlisted
             expiresIn userID,
           store ++ [newPaste now freshID title content language isPrivate
             unlisted expiresIn userID])

/-- Whether an optional expiration instant is strictly in the past
(`time.Now().After(*paste.ExpiresAt)`). -/
def expiredB (expiresAt : Option Int) (now : Int) : Bool :=
  match expiresAt with
  | some e => decide (e < now)
  | none => false

/-- paste_service.go `GetPaste`. -/
def GetPaste (store : List Paste) (now : Int) (pasteID : String)
    (viewerUserID : Option Nat) : Except String Paste :=
  match firstPaste store (idPred pasteID) with
  | none => .error "paste not found"
  | some paste =>
    if expiredB paste.expiresAt now then .error "paste not found"
    else if paste.isPrivate then
      match viewerUserID, paste.userID with
      | some v, some o =>
        if v = o then .ok paste else .error "paste not found"
      | _, _ => .error "paste not found"
    else .ok paste

/-- paste_service.go `UpdatePaste`. -/
def UpdatePaste (store : List Paste) (now : Int)
    (pasteID title content language : String) (unlisted : Bool)
    (userID : Nat) : Except String (Paste × List Paste) :=
  match firstPaste store (idPred pasteID) with
  | none => .error "paste not found"
  | some paste =>
    match paste.userID with
    | none => .error "you can only edit your own pastes"
    | some owner =>
      if owner = userID then
        .ok ({ paste with
                title := title
                content := content
                contentHash := computeFileHash content
                language := language
                unlisted := unlisted
                updatedAt := now },
             savePaste store
               { paste with
                  title := title
                  content := content
                  contentHash := computeFileHash content
                  language := language
                  unlisted := unlisted
                  updatedAt := now })
      else .error "you can only edit your own pastes"

/-- paste_service.go `DeletePaste`. -/
def DeletePaste (store : List Paste) (now : Int) (pasteID : String)
    (userID : Nat) : Except String (List Paste) :=
  match firstPaste store (idPred pasteID) with
  | none => .error "paste not found"
  | some paste =>
    match paste.userID with
    | none => .error "you can only delete your own pastes"
    | some owner =>
      if owner = userID then .ok (softDeleteByID store paste.id now)
      else .error "you can only delete your own pastes"

/-- The WHERE condition of `CleanupExpiredPastes`, with GORM's soft-delete
scope: `expires_at IS NOT NULL AND expires_at < now AND deleted_at IS NULL`. -/
def sweepHits (now : Int) (p : Paste) : Bool :=
  p.deletedAt == none && expiredB p.expiresAt now

/-- paste_service.go `CleanupExpiredPastes`: a batch `Delete` on a
soft-deletable model, i.e. `UPDATE pastes SET deleted_at = now WHERE ...`;
returns `RowsAffected` and the resulting table. -/
def CleanupExpiredPastes (store : List Paste) (now : Int) :
    Nat × List Paste :=
  ((store.filter (sweepHits now)).length,
   store.map (fun p =>
     if sweepHits now p then { p with deletedAt := some now } else p))

/-! ### Auth service `Login` (auth service source) -/

/-- `Login`: look the user up by username, then check the password with
bcrypt.  `bcryptOK hash password` stands for the external
`bcrypt.CompareHashAndPassword` succeeding. -/
def Login (bcryptOK : String → String → Bool) (users : List User)
    (username password : String) : Except String User :=
  match firstUser users (fun u => u.username == username) with
  | none => .error "invalid username or password"
  | some user =>
    if bcryptOK user.passwordHash password then .ok user
    else .error "invalid username or password"

/-- Whether an `Except` result is a success. -/
def isOkB {α : Type} (e : Except String α) : Bool :=
  match e with
  | .ok _ => true
  | .error _ => false

/-! ### Query lemmas -/

theorem pasteStep_hit (pred : Paste → Bool) (p : Paste)
    (hd : p.deletedAt = none) (hp : pred p = true) :
    pasteStep pred none p = some p := by
  simp [pasteStep, hd, hp]

theorem pasteStep_miss (pred : Paste → Bool) (acc : Option Paste) (p : Paste)
    (hp : pred p = false) : pasteStep pred acc p = acc := by
  cases acc <;> simp [pasteStep, hp]

theorem firstPaste_append_one (store : List Paste) (pred : Paste → Bool)
    (p : Paste) :
    firstPaste (store ++ [p]) pred = pasteStep pred (firstPaste store pred) p := by
  simp [firstPaste, List.foldl_append]

theorem foldl_pasteStep_mem (pred : Paste → Bool) (store : List Paste) :
    ∀ (acc : Option Paste) (p : Paste),
      store.foldl (pasteStep pred) acc = some p →
      acc = some p ∨ (p ∈ store ∧ p.deletedAt = none ∧ pred p = true) := by
  induction store with
  | nil => exact fun acc p h => Or.inl h
  | cons q rest ih =>
    intro acc p h
    rcases ih (pasteStep pred acc q) p h with h1 | h2
    · cases acc with
      | none =>
        simp only [pasteStep] at h1
        split at h1
        · rename_i hcond
          have : q = p := by simpa using h1
          subst this
          exact Or.inr ⟨List.mem_cons_self _ _,
            by simpa using ((Bool.and_eq_true _ _).mp hcond).1,
            ((Bool.and_eq_true _ _).mp hcond).2⟩
        · simp at h1
      | some r =>
        simp only [pasteStep] at h1
        split at h1
        · rename_i hcond
          split at h1
          · have : q = p := by simpa using h1
            subst this
            exact Or.inr ⟨List.mem_cons_self _ _,
              by simpa using ((Bool.and_eq_true _ _).mp hcond).1,
              ((Bool.and_eq_true _ _).mp hcond).2⟩
          · exact Or.inl h1
        · exact Or.inl h1
    · exact Or.inr ⟨List.mem_cons_of_mem _ h2.1, h2.2⟩

theorem firstPaste_mem {store : List Paste} {pred : Paste → Bool} {p : Paste}
    (h : firstPaste store pred = some p) :
    p ∈ store ∧ p.deletedAt = none ∧ pred p = true := by
  rcases foldl_pasteStep_mem pred store none p h with h1 | h2
  · exact absurd h1 (by simp)
  · exact h2

/-- The freshly inserted row satisfies its own dedup condition. -/
theorem dedupPred_newPaste (now : Int) (freshID title content language : String)
    (isPrivate unlisted : Bool) (expiresIn : Option Int) (userID : Option Nat) :
    dedupPred content userID
      (newPaste now freshID title content language isPrivate unlisted
        expiresIn userID) = true := by
  cases userID <;> simp [dedupPred, newPaste, scopeMatches]

/-- `CreatePaste` with the validation checks discharged: it is exactly the
dedup lookup followed by either returning the hit or inserting a new row. -/
theorem createPaste_eq (store : List Paste) (now : Int)
    (freshID title content language : String) (isPrivate unlisted : Bool)
    (expiresIn : Option Int) (userID : Option Nat)
    (hne : byteLen content ≠ 0) (hle : byteLen content ≤ 10 <<< 20)
    (hpriv : isPrivate = true → userID ≠ none) :
    CreatePaste store now freshID title content language isPrivate unlisted
        expiresIn userID =
      match firstPaste store (dedupPred content userID) with
      | some existing => .ok (existing, store)
      | none =>
        .ok (newPaste now freshID title content language isPrivate unlisted
               expiresIn userID,
             store ++ [newPaste now freshID title content language isPrivate
               unlisted expiresIn userID]) := by
  unfold CreatePaste
  rw [if_neg hne, if_neg (by omega : ¬ byteLen content > 10 <<< 20),
    if_neg (fun hc => hpriv hc.1 hc.2)]

/-- Inversion of a successful `CreatePaste`: validation passed, and the
result is either the dedup hit with the store unchanged or a fresh insert. -/
theorem createPaste_ok_inv {store : List Paste} {now : Int}
    {freshID title content language : String} {isPrivate unlisted : Bool}
    {expiresIn : Option Int} {userID : Option Nat} {p : Paste}
    {s' : List Paste}
    (h : CreatePaste store now freshID title content language isPrivate
          unlisted expiresIn userID = .ok (p, s')) :
    ¬(isPrivate = true ∧ userID = none) ∧
    ((firstPaste store (dedupPred content userID) = some p ∧ s' = store) ∨
     (firstPaste store (dedupPred content userID) = none ∧
      p = newPaste now freshID title content language isPrivate unlisted
            expiresIn userID ∧
      s' = store ++ [p])) := by
  unfold CreatePaste at h
  split at h
  · simp at h
  · split at h
    · simp at h
    · split at h
      · simp at h
      · rename_i hpriv
        refine ⟨hpriv, ?_⟩
        split at h
        · rename_i existing hfp
          simp only [Except.ok.injEq, Prod.mk.injEq] at h
          obtain ⟨rfl, rfl⟩ := h
          exact Or.inl ⟨hfp, rfl⟩
        · rename_i hfp
          simp only [Except.ok.injEq, Prod.mk.injEq] at h
          obtain ⟨rfl, rfl⟩ := h
          exact Or.inr ⟨hfp, rfl, rfl⟩

/-! ### Claim C1 -/

/-- Claim C1: paste creation is idempotent per owner scope.  If a live paste
with the fingerprint of the content already exists in the requested owner
scope, `CreatePaste` returns that existing paste with the store unchanged
(no new row, no new ID); two successive creates with identical content and
the same owner scope return the same paste and leave the store as after the
first call; and creating identical content anonymously and then under user
`a` yields two distinct pastes with distinct IDs and owners. -/
theorem createPaste_dedup_per_scope :
    (∀ (store : List Paste) (now : Int)
        (freshID title content language : String) (isPrivate unlisted : Bool)
        (expiresIn : Option Int) (userID : Option Nat) (p : Paste),
      byteLen content ≠ 0 → byteLen content ≤ 10 <<< 20 →
      (isPrivate = true → userID ≠ none) →
      firstPaste store (dedupPred content userID) = some p →
      CreatePaste store now freshID title content language isPrivate unlisted
        expiresIn userID = .ok (p, store)) ∧
    (∀ (store : List Paste) (now₁ now₂ : Int) (f₁ f₂ t₁ t₂ c l₁ l₂ : String)
        (pr₁ pr₂ un₁ un₂ : Bool) (e₁ e₂ : Option Int) (uid : Option Nat)
        (p₁ : Paste) (s₁ : List Paste),
      byteLen c ≠ 0 → byteLen c ≤ 10 <<< 20 →
      (pr₁ = true → uid ≠ none) → (pr₂ = true → uid ≠ none) →
      CreatePaste store now₁ f₁ t₁ c l₁ pr₁ un₁ e₁ uid = .ok (p₁, s₁) →
      CreatePaste s₁ now₂ f₂ t₂ c l₂ pr₂ un₂ e₂ uid = .ok (p₁, s₁)) ∧
    (∀ (store : List Paste) (now₁ now₂ : Int) (f₁ f₂ t₁ t₂ c l₁ l₂ : String)
        (pr₂ un₁ un₂ : Bool) (e₁ e₂ : Option Int) (a : Nat),
      byteLen c ≠ 0 → byteLen c ≤ 10 <<< 20 →
      firstPaste store (dedupPred c none) = none →
      firstPaste store (dedupPred c (some a)) = none →
      f₁ ≠ f₂ →
      ∃ (p₁ : Paste) (s₁ : List Paste) (p₂ : Paste) (s₂ : List Paste),
        CreatePaste store now₁ f₁ t₁ c l₁ false un₁ e₁ none = .ok (p₁, s₁) ∧
        CreatePaste s₁ now₂ f₂ t₂ c l₂ pr₂ un₂ e₂ (some a) = .ok (p₂, s₂) ∧
        p₁.id = f₁ ∧ p₂.id = f₂ ∧ p₁.id ≠ p₂.id ∧
        p₁.userID = none ∧ p₂.userID = some a) := by
  refine ⟨?_, ?_, ?_⟩
  · intro store now freshID title content language isPrivate unlisted
      expiresIn userID p hne hle hpriv hfp
    rw [createPaste_eq store now freshID title content language isPrivate
      unlisted expiresIn userID hne hle hpriv, hfp]
  · intro store now₁ now₂ f₁ f₂ t₁ t₂ c l₁ l₂ pr₁ pr₂ un₁ un₂ e₁ e₂ uid p₁ s₁
      hne hle hp1 hp2 h1
    rw [createPaste_eq store now₁ f₁ t₁ c l₁ pr₁ un₁ e₁ uid hne hle hp1] at h1
    rw [createPaste_eq s₁ now₂ f₂ t₂ c l₂ pr₂ un₂ e₂ uid hne hle hp2]
    cases hfp : firstPaste store (dedupPred c uid) with
    | some q =>
      rw [hfp] at h1
      simp only [Except.ok.injEq, Prod.mk.injEq] at h1
      obtain ⟨rfl, rfl⟩ := h1
      rw [hfp]
    | none =>
      rw [hfp] at h1
      simp only [Except.ok.injEq, Prod.mk.injEq] at h1
      obtain ⟨rfl, rfl⟩ := h1
      rw [firstPaste_append_one, hfp,
        pasteStep_hit _ _ rfl (dedupPred_newPaste now₁ f₁ t₁ c l₁ pr₁ un₁ e₁ uid)]
  · intro store now₁ now₂ f₁ f₂ t₁ t₂ c l₁ l₂ pr₂ un₁ un₂ e₁ e₂ a
      hne hle hA hB hf
    refine ⟨newPaste now₁ f₁ t₁ c l₁ false un₁ e₁ none,
      store ++ [newPaste now₁ f₁ t₁ c l₁ false un₁ e₁ none],
      newPaste now₂ f₂ t₂ c l₂ pr₂ un₂ e₂ (some a),
      (store ++ [newPaste now₁ f₁ t₁ c l₁ false un₁ e₁ none]) ++
        [newPaste now₂ f₂ t₂ c l₂ pr₂ un₂ e₂ (some a)],
      ?_, ?_, rfl, rfl, hf, rfl, rfl⟩
    · rw [createPaste_eq store now₁ f₁ t₁ c l₁ false un₁ e₁ none hne hle
        (by simp), hA]
    · rw [createPaste_eq _ now₂ f₂ t₂ c l₂ pr₂ un₂ e₂ (some a) hne hle
        (fun _ => by simp), firstPaste_append_one, hB,
        pasteStep_miss _ _ _ (by simp [dedupPred, newPaste, scopeMatches])]

/-- Claim C1 witness: concrete instances of all three conjuncts on the
content `"hello"`, a store that is initially empty, and user 1. -/
theorem createPaste_dedup_per_scope_witness :
    (CreatePaste [newPaste 1 "aaaaaaaa" "t" "hello" "go" false false none
        (some 1)] 2 "cccccccc" "v" "hello" "go" false false none (some 1) =
      .ok (newPaste 1 "aaaaaaaa" "t" "hello" "go" false false none (some 1),
        [newPaste 1 "aaaaaaaa" "t" "hello" "go" false false none (some 1)])) ∧
    (CreatePaste [newPaste 1 "aaaaaaaa" "t" "hello" "go" false false none
        (some 1)] 2 "bbbbbbbb" "u" "hello" "go" false true none (some 1) =
      .ok (newPaste 1 "aaaaaaaa" "t" "hello" "go" false false none (some 1),
        [newPaste 1 "aaaaaaaa" "t" "hello" "go" false false none (some 1)])) ∧
    (∃ (p₁ : Paste) (s₁ : List Paste) (p₂ : Paste) (s₂ : List Paste),
      CreatePaste [] 1 "aaaaaaaa" "t" "hello" "go" false false none none =
        .ok (p₁, s₁) ∧
      CreatePaste s₁ 2 "bbbbbbbb" "u" "hello" "go" false true none (some 1) =
        .ok (p₂, s₂) ∧
      p₁.id = "aaaaaaaa" ∧ p₂.id = "bbbbbbbb" ∧ p₁.id ≠ p₂.id ∧
      p₁.userID = none ∧ p₂.userID = some 1) :=
  ⟨createPaste_dedup_per_scope.1
      [newPaste 1 "aaaaaaaa" "t" "hello" "go" false false none (some 1)]
      2 "cccccccc" "v" "hello" "go" false false none (some 1) _
      (by decide) (by decide) (by decide)
      (by simp [firstPaste, pasteStep, dedupPred, newPaste, scopeMatches]),
   createPaste_dedup_per_scope.2.1 [] 1 2 "aaaaaaaa" "bbbbbbbb" "t" "u"
      "hello" "go" "go" false false false true none none (some 1) _ _
      (by decide) (by decide) (by decide) (by decide) rfl,
   createPaste_dedup_per_scope.2.2 [] 1 2 "aaaaaaaa" "bbbbbbbb" "t" "u"
      "hello" "go" "go" false false true none none 1
      (by decide) (by decide) rfl rfl (by decide)⟩

/-! ### Claim C2 -/

/-- Claim C2: reading a private paste as anyone other than its owner
(including anonymously) fails with exactly the same `"paste not found"`
error value that `GetPaste` returns for an ID with no live row at all, so
the two outcomes are indistinguishable to the caller. -/
theorem getPaste_private_indistinguishable :
    (∀ (store : List Paste) (now : Int) (pasteID : String)
        (viewer : Option Nat) (p : Paste),
      firstPaste store (idPred pasteID) = some p →
      p.isPrivate = true →
      (viewer = none ∨ p.userID = none ∨ viewer ≠ p.userID) →
      GetPaste store now pasteID viewer = .error "paste not found") ∧
    (∀ (store : List Paste) (now : Int) (pasteID : String)
        (viewer : Option Nat),
      firstPaste store (idPred pasteID) = none →
      GetPaste store now pasteID viewer = .error "paste not found") := by
  constructor
  · intro store now pasteID viewer p hfp hpriv hview
    unfold GetPaste
    rw [hfp]
    cases hE : expiredB p.expiresAt now with
    | true => simp [hE]
    | false =>
      rcases hview with rfl | hnil | hne
      · cases p.userID <;> simp [hE, hpriv]
      · cases viewer <;> simp [hE, hpriv, hnil]
      · cases viewer with
        | none => cases p.userID <;> simp [hE, hpriv]
        | some v =>
          cases hO : p.userID with
          | none => simp [hE, hpriv, hO]
          | some o =>
            have hvo : ¬ v = o := fun h => hne (by rw [hO, h])
            simp [hE, hpriv, hO, hvo]
  · intro store now pasteID viewer hfp
    unfold GetPaste
    rw [hfp]

/-- A sample private paste owned by user 1 (row written out field by field). -/
def pPriv : Paste :=
  { id := "pppppppp", title := "t", content := "secret", contentHash := "h1"
    language := "txt", isPrivate := true, unlisted := false
    expiresAt := none, userID := some 1
    createdAt := 0, updatedAt := 0, deletedAt := none }

/-- A sample public anonymous paste that expired at instant 5. -/
def pExp : Paste :=
  { id := "eeeeeeee", title := "t", content := "old", contentHash := "h2"
    language := "txt", isPrivate := false, unlisted := false
    expiresAt := some 5, userID := none
    createdAt := 0, updatedAt := 0, deletedAt := none }

/-- Claim C2 witness: with the private paste of user 1 in the store, user 2
and the anonymous viewer get the very same error as for a missing ID. -/
theorem getPaste_private_indistinguishable_witness :
    GetPaste [pPriv] 7 "pppppppp" (some 2) = .error "paste not found" ∧
    GetPaste [pPriv] 7 "pppppppp" none = .error "paste not found" ∧
    GetPaste [pPriv] 7 "qqqqqqqq" (some 2) = .error "paste not found" :=
  ⟨getPaste_private_indistinguishable.1 [pPriv] 7 "pppppppp" (some 2) pPriv
      (by decide) (by decide) (Or.inr (Or.inr (by decide))),
   getPaste_private_indistinguishable.1 [pPriv] 7 "pppppppp" none pPriv
      (by decide) (by decide) (Or.inl rfl),
   getPaste_private_indistinguishable.2 [pPriv] 7 "qqqqqqqq" (some 2)
      (by decide)⟩

/-! ### Claim C4 -/

/-- Claim C4 (amended): expiration is checked live at read time — a paste
whose expiration instant is strictly in the past reads as not found even
though its row is still in the store; a create with `expiresIn` absent or
non-positive stores no expiration instant and the new paste stays
retrievable at every later instant; a positive `expiresIn` of `m` minutes
stores the absolute instant `now` plus the requested minutes wrapped to a
signed 64-bit nanosecond duration — which is exactly `now + m` minutes
whenever `m * minuteNs` fits in int64, i.e. `m ≤ 153722867`. -/
theorem getPaste_live_expiry :
    (∀ (store : List Paste) (now : Int) (pasteID : String)
        (viewer : Option Nat) (p : Paste) (e : Nat),
      firstPaste store (idPred pasteID) = some p →
      p.expiresAt = some e → e < now →
      GetPaste store now pasteID viewer = .error "paste not found") ∧
    (∀ (store : List Paste) (now : Int) (freshID t c lang : String)
        (un : Bool) (eIn : Option Int) (uid : Option Nat)
        (viewer : Option Nat) (later : Int),
      byteLen c ≠ 0 → byteLen c ≤ 10 <<< 20 →
      (eIn = none ∨ ∃ m : Int, eIn = some m ∧ m ≤ 0) →
      firstPaste store (dedupPred c uid) = none →
      firstPaste store (idPred freshID) = none →
      ∃ p, CreatePaste store now freshID t c lang false un eIn uid =
            .ok (p, store ++ [p]) ∧
        p.expiresAt = none ∧
        GetPaste (store ++ [p]) later freshID viewer = .ok p) ∧
    (∀ (store : List Paste) (now : Int) (freshID t c lang : String)
        (pr un : Bool) (uid : Option Nat) (m : Int),
      byteLen c ≠ 0 → byteLen c ≤ 10 <<< 20 → (pr = true → uid ≠ none) →
      0 < m →
      firstPaste store (dedupPred c uid) = none →
      ∃ p, CreatePaste store now freshID t c lang pr un (some m) uid =
            .ok (p, store ++ [p]) ∧
        p.expiresAt = some (now + wrapInt64 (m * minuteNs)) ∧
        (m * minuteNs < 9223372036854775808 →
          p.expiresAt = some (now + m * minuteNs))) := by
  refine ⟨?_, ?_, ?_⟩
  · intro store now pasteID viewer p e hfp hexp hlt
    unfold GetPaste
    rw [hfp]
    simp [expiredB, hexp, hlt]
  · intro store now freshID t c lang un eIn uid viewer later hne hle heIn
      hdup hid
    have hexp : computeExpiry now eIn = none := by
      rcases heIn with rfl | ⟨m, rfl, hm⟩
      · rfl
      · simp [computeExpiry]
        omega
    refine ⟨newPaste now freshID t c lang false un eIn uid, ?_, hexp, ?_⟩
    · rw [createPaste_eq store now freshID t c lang false un eIn uid hne hle
        (by simp), hdup]
    · unfold GetPaste
      rw [firstPaste_append_one, hid,
        pasteStep_hit _ _ rfl (by simp [idPred, newPaste])]
      simp [newPaste, expiredB, hexp]
  · intro store now freshID t c lang pr un uid m hne hle hpriv hm hdup
    refine ⟨newPaste now freshID t c lang pr un (some m) uid, ?_, ?_, ?_⟩
    · rw [createPaste_eq store now freshID t c lang pr un (some m) uid hne hle
        hpriv, hdup]
    · simp [newPaste, computeExpiry, hm]
    · intro hfit
      have h0 : 0 ≤ m * minuteNs :=
        mul_nonneg (le_of_lt hm) (by norm_num [minuteNs])
      simp [newPaste, computeExpiry, hm, wrapInt64_eq_self h0 hfit]

/-- Claim C4 witness: the paste that expired at instant 5 reads as not found
at instant 10 while its row is still stored; an `expiresIn`-less create is
readable at the much later instant 123456; `expiresIn = 7` fits in int64 and
stores exactly the absolute instant `7 * minuteNs`. -/
theorem getPaste_live_expiry_witness :
    GetPaste [pExp] 10 "eeeeeeee" none = .error "paste not found" ∧
    (∃ p, CreatePaste [] 0 "aaaaaaaa" "t" "hi" "txt" false false none none =
        .ok (p, [] ++ [p]) ∧
      p.expiresAt = none ∧
      GetPaste ([] ++ [p]) 123456 "aaaaaaaa" none = .ok p) ∧
    (∃ p, CreatePaste [] 0 "bbbbbbbb" "t" "hi" "txt" false false (some 7)
          none = .ok (p, [] ++ [p]) ∧
      p.expiresAt = some (0 + wrapInt64 (7 * minuteNs)) ∧
      (7 * minuteNs < 9223372036854775808 →
        p.expiresAt = some (0 + 7 * minuteNs))) :=
  ⟨getPaste_live_expiry.1 [pExp] 10 "eeeeeeee" none pExp 5 (by decide)
      (by decide) (by decide),
   getPaste_live_expiry.2.1 [] 0 "aaaaaaaa" "t" "hi" "txt" false none none
      none 123456 (by decide) (by decide) (Or.inl rfl) rfl rfl,
   getPaste_live_expiry.2.2 [] 0 "bbbbbbbb" "t" "hi" "txt" false false none 7
      (by decide) (by decide) (by simp) (by decide) rfl⟩

/-- Claim C4 counterexample: a positive `expiresInMinutes` does not always
yield `submission time + that many minutes`, because Go's
`time.Duration(*expiresIn) * time.Minute` is int64 arithmetic and wraps.
With `expiresIn = 153722868` minutes at instant 0 the requested product
`9223372080000000000` exceeds `2^63 - 1`, so the program stores the wrapped
instant `-9223371993709551616` — in the past — and the freshly created
paste is immediately reported as not found. -/
theorem getPaste_live_expiry_cex :
    CreatePaste [] 0 "aaaaaaaa" "t" "hi" "txt" false false (some 153722868)
        none =
      .ok (newPaste 0 "aaaaaaaa" "t" "hi" "txt" false false (some 153722868)
             none,
           [newPaste 0 "aaaaaaaa" "t" "hi" "txt" false false (some 153722868)
             none]) ∧
    (newPaste 0 "aaaaaaaa" "t" "hi" "txt" false false (some 153722868)
        none).expiresAt ≠ some ((0 : Int) + 153722868 * minuteNs) ∧
    (newPaste 0 "aaaaaaaa" "t" "hi" "txt" false false (some 153722868)
        none).expiresAt = some (-9223371993709551616) ∧
    GetPaste [newPaste 0 "aaaaaaaa" "t" "hi" "txt" false false
        (some 153722868) none] 0 "aaaaaaaa" none =
      .error "paste not found" := by
  refine ⟨rfl, by decide, by decide, ?_⟩
  unfold GetPaste
  rw [show firstPaste [newPaste 0 "aaaaaaaa" "t" "hi" "txt" false false
      (some 153722868) none] (idPred "aaaaaaaa") =
      some (newPaste 0 "aaaaaaaa" "t" "hi" "txt" false false
        (some 153722868) none) from by
    simp [firstPaste, pasteStep, idPred, newPaste]]
  simp [newPaste, computeExpiry, expiredB, wrapInt64, minuteNs]

/-! ### Claim C5 -/

/-- Claim C5: `CreatePaste` validation — empty content, content over
10 MiB, and a private paste without an owner are each rejected with their
error; content of exactly 10 MiB passes the size check; and any input
violating none of the three checks succeeds. -/
theorem createPaste_validation :
    (∀ (store : List Paste) (now : Int) (freshID t c lang : String)
        (pr un : Bool) (eIn : Option Int) (uid : Option Nat),
      byteLen c = 0 →
      CreatePaste store now freshID t c lang pr un eIn uid =
        .error "paste content cannot be empty") ∧
    (∀ (store : List Paste) (now : Int) (freshID t c lang : String)
        (pr un : Bool) (eIn : Option Int) (uid : Option Nat),
      byteLen c > 10 <<< 20 →
      CreatePaste store now freshID t c lang pr un eIn uid =
        .error "paste too large (max 10MB)") ∧
    (∀ (store : List Paste) (now : Int) (freshID t c lang : String)
        (un : Bool) (eIn : Option Int),
      byteLen c ≠ 0 → byteLen c ≤ 10 <<< 20 →
      CreatePaste store now freshID t c lang true un eIn none =
        .error "must be logged in to create private pastes") ∧
    (∀ (store : List Paste) (now : Int) (freshID t c lang : String)
        (pr un : Bool) (eIn : Option Int) (uid : Option Nat),
      byteLen c = 10 <<< 20 → (pr = true → uid ≠ none) →
      isOkB (CreatePaste store now freshID t c lang pr un eIn uid) = true) ∧
    (∀ (store : List Paste) (now : Int) (freshID t c lang : String)
        (pr un : Bool) (eIn : Option Int) (uid : Option Nat),
      byteLen c ≠ 0 → byteLen c ≤ 10 <<< 20 → (pr = true → uid ≠ none) →
      isOkB (CreatePaste store now freshID t c lang pr un eIn uid) = true) := by
  have h20 : (10 <<< 20 : Nat) = 10485760 := rfl
  have main : ∀ (store : List Paste) (now : Int) (freshID t c lang : String)
      (pr un : Bool) (eIn : Option Int) (uid : Option Nat),
      byteLen c ≠ 0 → byteLen c ≤ 10 <<< 20 → (pr = true → uid ≠ none) →
      isOkB (CreatePaste store now freshID t c lang pr un eIn uid) = true := by
    intro store now freshID t c lang pr un eIn uid hne hle hpriv
    rw [createPaste_eq store now freshID t c lang pr un eIn uid hne hle hpriv]
    cases hfp : firstPaste store (dedupPred c uid) <;> rfl
  refine ⟨?_, ?_, ?_, ?_, main⟩
  · intro store now freshID t c lang pr un eIn uid h
    unfold CreatePaste
    rw [if_pos h]
  · intro store now freshID t c lang pr un eIn uid h
    unfold CreatePaste
    rw [if_neg (by omega : ¬ byteLen c = 0), if_pos h]
  · intro store now freshID t c lang un eIn hne hle
    unfold CreatePaste
    rw [if_neg hne, if_neg (by omega : ¬ byteLen c > 10 <<< 20),
      if_pos ⟨rfl, rfl⟩]
  · intro store now freshID t c lang pr un eIn uid hsz hpriv
    exact main store now freshID t c lang pr un eIn uid
      (by omega) (by omega) hpriv

/-- The string of `n` repetitions of the byte `a`, for size-limit tests. -/
def bigContent (n : Nat) : String :=
  String.mk (List.replicate n 'a')

theorem byteLen_mk_cons (ch : Char) (l : List Char) :
    byteLen (String.mk (ch :: l)) =
      (utf8EncodeChar ch).length + byteLen (String.mk l) := by
  simp [byteLen, utf8Bytes]

theorem byteLen_bigContent (n : Nat) : byteLen (bigContent n) = n := by
  induction n with
  | zero => rfl
  | succ k ih =>
    rw [bigContent, List.replicate_succ, byteLen_mk_cons]
    rw [bigContent] at ih
    rw [ih]
    have h1 : (utf8EncodeChar 'a').length = 1 := rfl
    omega

/-- Claim C5 witness: concrete instances — empty content rejected; one byte
over 10 MiB rejected; anonymous private rejected; exactly 10 MiB accepted;
a small valid paste accepted. -/
theorem createPaste_validation_witness :
    CreatePaste [] 0 "aaaaaaaa" "t" "" "txt" false false none none =
      .error "paste content cannot be empty" ∧
    CreatePaste [] 0 "aaaaaaaa" "t" (bigContent (10 <<< 20 + 1)) "txt" false
        false none none = .error "paste too large (max 10MB)" ∧
    CreatePaste [] 0 "aaaaaaaa" "t" "x" "txt" true false none none =
      .error "must be logged in to create private pastes" ∧
    isOkB (CreatePaste [] 0 "aaaaaaaa" "t" (bigContent (10 <<< 20)) "txt"
        false false none none) = true ∧
    isOkB (CreatePaste [] 0 "aaaaaaaa" "t" "x" "txt" false false none none) =
      true :=
  ⟨createPaste_validation.1 [] 0 "aaaaaaaa" "t" "" "txt" false false none none
      (by decide),
   createPaste_validation.2.1 [] 0 "aaaaaaaa" "t" (bigContent (10 <<< 20 + 1))
      "txt" false false none none
      (by rw [byteLen_bigContent]; exact Nat.lt_succ_self _),
   createPaste_validation.2.2.1 [] 0 "aaaaaaaa" "t" "x" "txt" false none
      (by decide) (by decide),
   createPaste_validation.2.2.2.1 [] 0 "aaaaaaaa" "t" (bigContent (10 <<< 20))
      "txt" false false none none (byteLen_bigContent (10 <<< 20)) (by simp),
   createPaste_validation.2.2.2.2 [] 0 "aaaaaaaa" "t" "x" "txt" false false
      none none (by decide) (by decide) (by simp)⟩

/-! ### Update inversion -/

/-- Inversion of a successful `UpdatePaste`: the row was found live, owned
by the caller, and the result is the row with exactly the six mutable
columns replaced, saved back into the store. -/
theorem updatePaste_ok_inv {store : List Paste} {now : Int}
    {pasteID t c lang : String} {un : Bool} {uid : Nat} {p' : Paste}
    {s' : List Paste}
    (h : UpdatePaste store now pasteID t c lang un uid = .ok (p', s')) :
    ∃ p, firstPaste store (idPred pasteID) = some p ∧ p.userID = some uid ∧
      p' = { p with
              title := t, content := c, contentHash := computeFileHash c,
              language := lang, unlisted := un, updatedAt := now } ∧
      s' = savePaste store p' := by
  unfold UpdatePaste at h
  split at h
  · simp at h
  · rename_i p hfp
    split at h
    · simp at h
    · rename_i owner hO
      split at h
      · rename_i hid
        simp only [Except.ok.injEq, Prod.mk.injEq] at h
        obtain ⟨rfl, rfl⟩ := h
        exact ⟨p, hfp, by rw [hO, hid], rfl, rfl⟩
      · simp at h

/-! ### Claim C6 -/

/-- Claim C6: a successful owner update replaces exactly the title, content,
fingerprint (recomputed from the new content, so it matches the stored
content), language, unlisted flag and update timestamp; the privacy flag,
expiration instant, owner, id, creation timestamp and delete marker are
unchanged. -/
theorem updatePaste_frame :
    ∀ (store : List Paste) (now : Int) (pasteID t c lang : String)
      (un : Bool) (uid : Nat) (p' : Paste) (s' : List Paste),
      UpdatePaste store now pasteID t c lang un uid = .ok (p', s') →
      ∃ p, firstPaste store (idPred pasteID) = some p ∧
        p.userID = some uid ∧
        p'.title = t ∧ p'.content = c ∧
        p'.contentHash = computeFileHash c ∧
        p'.contentHash = computeFileHash p'.content ∧
        p'.language = lang ∧ p'.unlisted = un ∧ p'.updatedAt = now ∧
        p'.isPrivate = p.isPrivate ∧ p'.expiresAt = p.expiresAt ∧
        p'.userID = p.userID ∧ p'.id = p.id ∧ p'.createdAt = p.createdAt ∧
        p'.deletedAt = p.deletedAt ∧ s' = savePaste store p' := by
  intro store now pasteID t c lang un uid p' s' h
  obtain ⟨p, hfp, hO, rfl, rfl⟩ := updatePaste_ok_inv h
  exact ⟨p, hfp, hO, rfl, rfl, rfl, rfl, rfl, rfl, rfl, rfl, rfl, rfl, rfl,
    rfl, rfl, rfl⟩

/-- The result of the concrete claim-six update on the sample private paste. -/
def pUpd : Paste :=
  { pPriv with
    title := "t2", content := "c2", contentHash := computeFileHash "c2",
    language := "go", unlisted := true, updatedAt := 9 }

/-- Claim C6 witness: user 1 updates the sample private paste. -/
theorem updatePaste_frame_witness :
    ∃ p, firstPaste [pPriv] (idPred "pppppppp") = some p ∧
      p.userID = some 1 ∧
      pUpd.title = "t2" ∧ pUpd.content = "c2" ∧
      pUpd.contentHash = computeFileHash "c2" ∧
      pUpd.contentHash = computeFileHash pUpd.content ∧
      pUpd.language = "go" ∧ pUpd.unlisted = true ∧ pUpd.updatedAt = 9 ∧
      pUpd.isPrivate = p.isPrivate ∧ pUpd.expiresAt = p.expiresAt ∧
      pUpd.userID = p.userID ∧ pUpd.id = p.id ∧ pUpd.createdAt = p.createdAt ∧
      pUpd.deletedAt = p.deletedAt ∧
      savePaste [pPriv] pUpd = savePaste [pPriv] pUpd :=
  updatePaste_frame [pPriv] 9 "pppppppp" "t2" "c2" "go" true 1 pUpd
    (savePaste [pPriv] pUpd) rfl

/-! ### Claim C7 -/

/-- Every stored private paste (live or tombstoned) has an owner. -/
def PrivOwned (store : List Paste) : Prop :=
  ∀ p ∈ store, p.isPrivate = true → p.userID ≠ none

/-- Claim C7: `CreatePaste` rejects an anonymous private paste, and create
(both the dedup-hit and the insert path), update, delete and the expiration
sweep all preserve the invariant that a stored private paste has an owner. -/
theorem private_paste_has_owner :
    (∀ (store : List Paste) (now : Int) (freshID t c lang : String)
        (un : Bool) (eIn : Option Int),
      byteLen c ≠ 0 → byteLen c ≤ 10 <<< 20 →
      CreatePaste store now freshID t c lang true un eIn none =
        .error "must be logged in to create private pastes") ∧
    (∀ (store : List Paste) (now : Int) (freshID t c lang : String)
        (pr un : Bool) (eIn : Option Int) (uid : Option Nat) (p : Paste)
        (s' : List Paste),
      PrivOwned store →
      CreatePaste store now freshID t c lang pr un eIn uid = .ok (p, s') →
      PrivOwned s') ∧
    (∀ (store : List Paste) (now : Int) (pid t c lang : String) (un : Bool)
        (uid : Nat) (p' : Paste) (s' : List Paste),
      PrivOwned store →
      UpdatePaste store now pid t c lang un uid = .ok (p', s') →
      PrivOwned s') ∧
    (∀ (store : List Paste) (now : Int) (pid : String) (uid : Nat)
        (s' : List Paste),
      PrivOwned store →
      DeletePaste store now pid uid = .ok s' →
      PrivOwned s') ∧
    (∀ (store : List Paste) (now : Int),
      PrivOwned store → PrivOwned (CleanupExpiredPastes store now).2) := by
  refine ⟨?_, ?_, ?_, ?_, ?_⟩
  · intro store now freshID t c lang un eIn hne hle
    unfold CreatePaste
    rw [if_neg hne, if_neg (by omega : ¬ byteLen c > 10 <<< 20),
      if_pos ⟨rfl, rfl⟩]
  · intro store now freshID t c lang pr un eIn uid p s' hPO h
    obtain ⟨hval, hcase⟩ := createPaste_ok_inv h
    rcases hcase with ⟨_, rfl⟩ | ⟨_, rfl, rfl⟩
    · exact hPO
    · intro q hq hqpriv
      rcases List.mem_append.mp hq with hmem | hmem
      · exact hPO q hmem hqpriv
      · have : q = newPaste now freshID t c lang pr un eIn uid := by
          simpa using hmem
        subst this
        intro hnone
        exact hval ⟨hqpriv, hnone⟩
  · intro store now pid t c lang un uid p' s' hPO h
    obtain ⟨p, hfp, hO, rfl, rfl⟩ := updatePaste_ok_inv h
    intro q hq hqpriv
    obtain ⟨r, hr, hfr⟩ := List.mem_map.mp hq
    split at hfr
    · subst hfr
      have hp : p ∈ store := (firstPaste_mem hfp).1
      exact (hPO p hp (by simpa using hqpriv))
    · exact hPO q (hfr ▸ hr) hqpriv
  · intro store now pid uid s' hPO h
    unfold DeletePaste at h
    split at h
    · simp at h
    · rename_i p hfp
      split at h
      · simp at h
      · split at h
        · simp only [Except.ok.injEq] at h
          subst h
          intro q hq hqpriv
          obtain ⟨r, hr, hfr⟩ := List.mem_map.mp hq
          split at hfr
          · subst hfr
            exact hPO r hr (by simpa using hqpriv)
          · exact hPO q (hfr ▸ hr) hqpriv
        · simp at h
  · intro store now hPO q hq hqpriv
    obtain ⟨r, hr, hfr⟩ := List.mem_map.mp hq
    split at hfr
    · subst hfr
      exact hPO r hr (by simpa using hqpriv)
    · exact hPO q (hfr ▸ hr) hqpriv

/-- Claim C7 witness: the anonymous-private rejection at concrete input,
and invariant preservation across a concrete anonymous create. -/
theorem private_paste_has_owner_witness :
    CreatePaste [] 0 "aaaaaaaa" "t" "x" "txt" true false none none =
      .error "must be logged in to create private pastes" ∧
    PrivOwned ([] ++ [newPaste 0 "aaaaaaaa" "t" "x" "txt" false false none
      none]) :=
  ⟨private_paste_has_owner.1 [] 0 "aaaaaaaa" "t" "x" "txt" false none
      (by decide) (by decide),
   private_paste_has_owner.2.1 [] 0 "aaaaaaaa" "t" "x" "txt" false false
      none none _ _ (by simp [PrivOwned]) rfl⟩

/-! ### Claim C10 -/

/-- Claim C10: `UpdatePaste` performs no content validation — an owner
update succeeds for every content, including empty content and content
larger than 10 MiB, both of which `CreatePaste` rejects; its only failure
conditions are a missing (or tombstoned) row and a caller that is not the
current owner. -/
theorem updatePaste_no_validation :
    (∀ (store : List Paste) (now : Int) (pid t c lang : String) (un : Bool)
        (uid : Nat) (p : Paste),
      firstPaste store (idPred pid) = some p → p.userID = some uid →
      ∃ p' s', UpdatePaste store now pid t c lang un uid = .ok (p', s') ∧
        p'.content = c ∧ p'.contentHash = computeFileHash c) ∧
    (∀ (store : List Paste) (now : Int) (pid t c lang : String) (un : Bool)
        (uid : Nat),
      firstPaste store (idPred pid) = none →
      UpdatePaste store now pid t c lang un uid =
        .error "paste not found") ∧
    (∀ (store : List Paste) (now : Int) (pid t c lang : String) (un : Bool)
        (uid : Nat) (p : Paste),
      firstPaste store (idPred pid) = some p → p.userID ≠ some uid →
      UpdatePaste store now pid t c lang un uid =
        .error "you can only edit your own pastes") ∧
    (∀ (store : List Paste) (now : Int) (freshID t lang : String)
        (pr un : Bool) (eIn : Option Int) (uid : Option Nat),
      CreatePaste store now freshID t "" lang pr un eIn uid =
        .error "paste content cannot be empty") ∧
    (∀ (store : List Paste) (now : Int) (freshID t c lang : String)
        (pr un : Bool) (eIn : Option Int) (uid : Option Nat),
      byteLen c > 10 <<< 20 →
      CreatePaste store now freshID t c lang pr un eIn uid =
        .error "paste too large (max 10MB)") := by
  refine ⟨?_, ?_, ?_, ?_, ?_⟩
  · intro store now pid t c lang un uid p hfp hO
    refine ⟨{ p with
              title := t, content := c, contentHash := computeFileHash c,
              language := lang, unlisted := un, updatedAt := now },
            savePaste store
              { p with
                title := t, content := c,
                contentHash := computeFileHash c,
                language := lang, unlisted := un, updatedAt := now },
            ?_, rfl, rfl⟩
    simp [UpdatePaste, hfp, hO]
  · intro store now pid t c lang un uid hfp
    unfold UpdatePaste
    rw [hfp]
  · intro store now pid t c lang un uid p hfp hO
    unfold UpdatePaste
    rw [hfp]
    cases hU : p.userID with
    | none => simp [hU]
    | some o =>
      have : ¬ o = uid := fun hc => hO (by rw [hU, hc])
      simp [hU, this]
  · intro store now freshID t lang pr un eIn uid
    unfold CreatePaste
    rw [if_pos (show byteLen "" = 0 from rfl)]
  · intro store now freshID t c lang pr un eIn uid h
    unfold CreatePaste
    rw [if_neg (by omega : ¬ byteLen c = 0), if_pos h]

/-- Claim C10 witness: on the sample private paste of user 1, an owner
update with empty content and one with 10 MiB + 1 of content both succeed,
while `CreatePaste` rejects those same contents. -/
theorem updatePaste_no_validation_witness :
    (∃ p' s', UpdatePaste [pPriv] 9 "pppppppp" "t2" "" "go" false 1 =
        .ok (p', s') ∧
      p'.content = "" ∧ p'.contentHash = computeFileHash "") ∧
    (∃ p' s', UpdatePaste [pPriv] 9 "pppppppp" "t2"
        (bigContent (10 <<< 20 + 1)) "go" false 1 = .ok (p', s') ∧
      p'.content = bigContent (10 <<< 20 + 1) ∧
      p'.contentHash = computeFileHash (bigContent (10 <<< 20 + 1))) ∧
    CreatePaste [] 0 "aaaaaaaa" "t2" "" "go" false false none (some 1) =
      .error "paste content cannot be empty" ∧
    CreatePaste [] 0 "aaaaaaaa" "t2" (bigContent (10 <<< 20 + 1)) "go" false
        false none (some 1) = .error "paste too large (max 10MB)" :=
  ⟨updatePaste_no_validation.1 [pPriv] 9 "pppppppp" "t2" "" "go" false 1
      pPriv (by decide) (by decide),
   updatePaste_no_validation.1 [pPriv] 9 "pppppppp" "t2"
      (bigContent (10 <<< 20 + 1)) "go" false 1 pPriv (by decide) (by decide),
   updatePaste_no_validation.2.2.2.1 [] 0 "aaaaaaaa" "t2" "go" false false
      none (some 1),
   updatePaste_no_validation.2.2.2.2 [] 0 "aaaaaaaa" "t2"
      (bigContent (10 <<< 20 + 1)) "go" false false none (some 1)
      (by rw [byteLen_bigContent]; exact Nat.lt_succ_self _)⟩

/-! ### Claim C3 -/

/-- After a sweep at `now`, no live row has an expiration instant before
`now`: every row the WHERE clause matched now carries a tombstone. -/
theorem sweep_live_not_expired (store : List Paste) (now : Int) :
    ∀ p ∈ (CleanupExpiredPastes store now).2, p.deletedAt = none →
      expiredB p.expiresAt now = false := by
  intro p hp hdel
  obtain ⟨r, hr, hfr⟩ := List.mem_map.mp hp
  split at hfr
  · rw [← hfr] at hdel
    simp at hdel
  · rename_i hmiss
    subst hfr
    simpa [sweepHits, hdel] using hmiss

/-- A sweep that matches no row rewrites every row to itself. -/
theorem sweep_map_id (now : Int) (store : List Paste)
    (h : ∀ p ∈ store, sweepHits now p = false) :
    (store.map (fun p =>
      if sweepHits now p then { p with deletedAt := some now } else p)) =
      store := by
  induction store with
  | nil => rfl
  | cons q rest ih =>
    have h1 : sweepHits now q = false := h q (List.mem_cons_self _ _)
    have h2 : ∀ p ∈ rest, sweepHits now p = false :=
      fun p hp => h p (List.mem_cons_of_mem _ hp)
    simp [h1, ih h2]

/-- A sweep whose WHERE clause matches no row affects zero rows and leaves
the table unchanged. -/
theorem sweep_noop (store : List Paste) (now : Int)
    (h : ∀ p ∈ store, sweepHits now p = false) :
    CleanupExpiredPastes store now = (0, store) := by
  unfold CleanupExpiredPastes
  rw [List.filter_eq_nil_iff.mpr (by intro a ha; simp [h a ha]),
    sweep_map_id now store h]
  rfl

/-- Claim C3 (amended): `CleanupExpiredPastes` tombstones (soft-deletes)
every live paste whose expiration instant is in the past — the rows stay in
the table with `deleted_at` set, the table length never changes — returns
the number of rows affected, and is idempotent: immediately rerunning the
sweep affects zero rows and changes nothing, and in general a run in which
nothing matches is a no-op returning zero. -/
theorem cleanupExpiredPastes_sweep :
    (∀ (store : List Paste) (now : Int),
      (CleanupExpiredPastes store now).1 =
        (store.filter (sweepHits now)).length ∧
      ((CleanupExpiredPastes store now).2).length = store.length) ∧
    (∀ (store : List Paste) (now : Int),
      ∀ p ∈ (CleanupExpiredPastes store now).2, p.deletedAt = none →
        expiredB p.expiresAt now = false) ∧
    (∀ (store : List Paste) (now : Int),
      (∀ p ∈ store, sweepHits now p = false) →
      CleanupExpiredPastes store now = (0, store)) ∧
    (∀ (store : List Paste) (now : Int),
      CleanupExpiredPastes (CleanupExpiredPastes store now).2 now =
        (0, (CleanupExpiredPastes store now).2)) := by
  refine ⟨?_, sweep_live_not_expired, sweep_noop, ?_⟩
  · intro store now
    exact ⟨rfl, by simp [CleanupExpiredPastes]⟩
  · intro store now
    refine sweep_noop _ _ ?_
    intro p hp
    cases hdel : p.deletedAt with
    | none =>
      simp [sweepHits, hdel, sweep_live_not_expired store now p hp hdel]
    | some d => simp [sweepHits, hdel]

/-- Claim C3 witness: on a store holding only the paste that expired at 5, a
sweep at 10 reports one row, the rerun reports zero and changes nothing. -/
theorem cleanupExpiredPastes_sweep_witness :
    ((CleanupExpiredPastes [pExp] 10).1 =
      ([pExp].filter (sweepHits 10)).length ∧
     ((CleanupExpiredPastes [pExp] 10).2).length = [pExp].length) ∧
    CleanupExpiredPastes [] 10 = (0, []) ∧
    CleanupExpiredPastes (CleanupExpiredPastes [pExp] 10).2 10 =
      (0, (CleanupExpiredPastes [pExp] 10).2) :=
  ⟨cleanupExpiredPastes_sweep.1 [pExp] 10,
   cleanupExpiredPastes_sweep.2.2.1 [] 10 (by intro p hp; simp at hp),
   cleanupExpiredPastes_sweep.2.2.2 [pExp] 10⟩

/-- Claim C3 counterexample: the sweep does NOT physically purge expired
rows.  Sweeping the one-row store whose paste expired at instant 5, at
instant 10, reports one row removed, yet the row is still present in the
table — only its `deleted_at` column was set (GORM soft delete). -/
theorem cleanupExpiredPastes_not_physical :
    (CleanupExpiredPastes [pExp] 10).1 = 1 ∧
    (CleanupExpiredPastes [pExp] 10).2 ≠ [] ∧
    (CleanupExpiredPastes [pExp] 10).2 =
      [{ pExp with deletedAt := some 10 }] := by
  refine ⟨rfl, ?_, ?_⟩ <;> decide

/-! ### Claim C8 -/

/-- Claim C8: `Login` fails with the one generic
`"invalid username or password"` error both when no user has the requested
username and when the user exists but the bcrypt comparison rejects the
password — the two failures are the same value, carrying no distinguishing
signal. -/
theorem login_generic_error :
    ∀ (bcryptOK : String → String → Bool) (users : List User)
      (username password : String),
      (firstUser users (fun u => u.username == username) = none →
        Login bcryptOK users username password =
          .error "invalid username or password") ∧
      (∀ u, firstUser users (fun u => u.username == username) = some u →
        bcryptOK u.passwordHash password = false →
        Login bcryptOK users username password =
          .error "invalid username or password") := by
  intro bcryptOK users username password
  constructor
  · intro h
    unfold Login
    rw [h]
  · intro u h hb
    unfold Login
    rw [h]
    simp [hb]

/-- The sample stored user for the claim-eight witness. -/
def uAlice : User :=
  { id := 1, username := "alice", passwordHash := "hh" }

/-- Claim C8 witness: with only the user `alice` stored and a bcrypt check
that rejects, logging in as the missing `bob` and as `alice` with a wrong
password produce the identical error. -/
theorem login_generic_error_witness :
    Login (fun _ _ => false) [uAlice] "bob" "pw" =
      .error "invalid username or password" ∧
    Login (fun _ _ => false) [uAlice] "alice" "pw" =
      .error "invalid username or password" :=
  ⟨(login_generic_error (fun _ _ => false) [uAlice] "bob" "pw").1 rfl,
   (login_generic_error (fun _ _ => false) [uAlice] "alice" "pw").2 uAlice
      rfl rfl⟩

/-! ### Claim C9 -/

/-- A public paste of user 7 whose stored fingerprint matches its content. -/
def pPub7 : Paste :=
  { id := "uuuuuuuu", title := "t", content := "dup"
    contentHash := computeFileHash "dup", language := "txt"
    isPrivate := false, unlisted := false, expiresAt := none
    userID := some 7, createdAt := 0, updatedAt := 0, deletedAt := none }

/-- The expired sample paste, with its fingerprint matching its content. -/
def pExpDup : Paste :=
  { pExp with contentHash := computeFileHash "old" }

/-- Claim C9: `CreatePaste`'s dedup lookup matches on fingerprint and owner
scope only (plus GORM's live-rows scope) and returns the matched row
verbatim, ignoring the requested title, privacy, unlisted and expiration
values and not excluding expired rows.  Consequently a
`CreatePaste (isPrivate := true)` can return an existing paste whose
`isPrivate` is `false`, and creating content identical to an expired,
not-yet-swept paste in the same scope returns that expired paste — whose ID
`GetPaste` immediately reports as not found — instead of storing a new
row. -/
theorem createPaste_dedup_ignores_row_state :
    (∀ (store : List Paste) (now : Int) (freshID t c lang : String)
        (pr un : Bool) (eIn : Option Int) (uid : Option Nat) (q : Paste),
      byteLen c ≠ 0 → byteLen c ≤ 10 <<< 20 → (pr = true → uid ≠ none) →
      firstPaste store (dedupPred c uid) = some q →
      CreatePaste store now freshID t c lang pr un eIn uid =
        .ok (q, store)) ∧
    (∃ q, CreatePaste [pPub7] 0 "nnnnnnnn" "t" "dup" "txt" true false none
        (some 7) = .ok (q, [pPub7]) ∧ q.isPrivate = false) ∧
    (∃ q, CreatePaste [pExpDup] 10 "nnnnnnnn" "t" "old" "txt" false false
        (some 30) none = .ok (q, [pExpDup]) ∧
      expiredB q.expiresAt 10 = true ∧
      GetPaste [pExpDup] 10 q.id none = .error "paste not found") := by
  refine ⟨?_, ?_, ?_⟩
  · intro store now freshID t c lang pr un eIn uid q hne hle hpriv hfp
    rw [createPaste_eq store now freshID t c lang pr un eIn uid hne hle
      hpriv, hfp]
  · refine ⟨pPub7, ?_, rfl⟩
    rw [createPaste_eq [pPub7] 0 "nnnnnnnn" "t" "dup" "txt" true false none
      (some 7) (by decide) (by decide) (by simp)]
    rw [show firstPaste [pPub7] (dedupPred "dup" (some 7)) = some pPub7 from
      by simp [firstPaste, pasteStep, dedupPred, pPub7, scopeMatches]]
  · refine ⟨pExpDup, ?_, by decide, ?_⟩
    · rw [createPaste_eq [pExpDup] 10 "nnnnnnnn" "t" "old" "txt" false false
        (some 30) none (by decide) (by decide) (by simp)]
      rw [show firstPaste [pExpDup] (dedupPred "old" none) = some pExpDup
        from by simp [firstPaste, pasteStep, dedupPred, pExpDup, pExp,
          scopeMatches]]
    · simp [GetPaste, firstPaste, pasteStep, idPred, pExpDup, pExp, expiredB]

/-- Claim C9 witness: deduplication on user 7's public paste ignores the
requested attributes and hands back the stored row verbatim. -/
theorem createPaste_dedup_ignores_row_state_witness :
    CreatePaste [pPub7] 1 "mmmmmmmm" "t2" "dup" "go" false true none
      (some 7) = .ok (pPub7, [pPub7]) :=
  createPaste_dedup_ignores_row_state.1 [pPub7] 1 "mmmmmmmm" "t2" "dup" "go"
    false true none (some 7) pPub7 (by decide) (by decide) (by simp)
    (by simp [firstPaste, pasteStep, dedupPred, pPub7, scopeMatches])

end Bastepin
